import Mathlib

/-!
Verification development for the Security & Abuse-Prevention Core of the
prof-profiler repository.

The definitions below are a shallow embedding of the TypeScript sources:

* the rate-limiting middleware (`getClientId`, `rateLimit`,
  `addRateLimitHeaders`, `cleanupExpiredEntries`, `RateLimitPresets`);
* the local storage helper `uploadFileLocally` (`src/lib/storage/local.ts`);
* the photo-upload route `POST /api/upload/photo`
  (`src/app/api/upload/photo/route.ts`);
* the login route `POST /api/auth/login` (`src/app/api/auth/login/route.ts`).

Time is modelled as a natural number of milliseconds (`Date.now()`).
The in-memory `Map` stores are modelled as association lists; JavaScript
string falsiness (`undefined` or `""`) is modelled explicitly.
-/

namespace ProfProfiler

/-! ## Rate limiter: data model (src/lib/rate-limit, `part_004`) -/

/-- `RateLimitConfig` from the source: window length in milliseconds and
maximum number of requests per window. -/
structure RateLimitConfig where
  windowMs : Nat
  maxRequests : Nat
deriving DecidableEq, Repr

/-- One entry of the in-memory `rateLimitStore`:
`{ count: number; resetTime: number }`. -/
structure RateRecord where
  count : Nat
  resetTime : Nat
deriving DecidableEq, Repr

/-- The module-level `rateLimitStore : Map<string, {count, resetTime}>`,
modelled as an association list from keys to records. -/
abbrev Store := List (String × RateRecord)

/-- `rateLimitStore.get(key)`. -/
def storeGet (s : Store) (k : String) : Option RateRecord :=
  match s with
  | [] => none
  | (k', r) :: rest => if k' = k then some r else storeGet rest k

/-- `rateLimitStore.set(key, record)`: replaces the binding for `key` when
present, otherwise appends a new binding. -/
def storeSet (s : Store) (k : String) (r : RateRecord) : Store :=
  match s with
  | [] => [(k, r)]
  | (k', r') :: rest =>
    if k' = k then (k, r) :: rest else (k', r') :: storeSet rest k r

/-- `cleanupExpiredEntries()`: deletes every record with `now > resetTime`. -/
def cleanupExpiredEntries (now : Nat) (s : Store) : Store :=
  s.filter (fun p => decide (now ≤ p.2.resetTime))

/-! ## Client identification (`getClientId`) -/

/-- The request headers consulted by `getClientId`. A header that is absent
is `none`; a header that is present with an empty value is `some ""`. -/
structure ClientHeaders where
  xForwardedFor : Option String
  xRealIp : Option String
  cfConnectingIp : Option String
deriving DecidableEq, Repr

/-- JavaScript truthiness of a `string | undefined` value:
`undefined` and `""` are falsy. -/
def truthy (s : Option String) : Bool :=
  match s with
  | none => false
  | some t => t ≠ ""

/-- JavaScript `s.split(sep)` for a one-character separator, on character
lists: always returns at least one (possibly empty) group. -/
def splitOnChar (c : Char) : List Char → List (List Char)
  | [] => [[]]
  | x :: xs =>
    let r := splitOnChar c xs
    if x = c then [] :: r
    else
      match r with
      | [] => [[x]]
      | g :: gs => (x :: g) :: gs

/-- The whitespace characters removed by JavaScript `String.prototype.trim`
(the ASCII ones; the headers at issue contain no exotic whitespace). -/
def isJsWhitespace (c : Char) : Bool :=
  c = ' ' ∨ c = '\t' ∨ c = '\n' ∨ c = '\r'

/-- JavaScript `s.trim()`: strips leading and trailing whitespace. -/
def jsTrim (cs : List Char) : List Char :=
  ((cs.dropWhile isJsWhitespace).reverse.dropWhile isJsWhitespace).reverse

/-- The JavaScript `a || b` idiom on a `string | undefined` left operand with
a string fallback: yields `a` when `a` is truthy, else `b`. -/
def jsOr (a : Option String) (b : String) : String :=
  match a with
  | none => b
  | some t => if t = "" then b else t

/-- `forwarded?.split(',')[0]?.trim()`: the first comma-separated component
of the `x-forwarded-for` header, trimmed, when the header is present. -/
def firstForwarded (h : ClientHeaders) : Option String :=
  h.xForwardedFor.map
    (fun s => String.mk (jsTrim ((splitOnChar ',' s.toList).headD [])))

/-- `getClientId(request, userId)` from the source: an authenticated (truthy)
user id gives `user:<id>`; otherwise the first forwarded-for component, the
`x-real-ip` header, the `cf-connecting-ip` header and the literal
`"unknown"` are tried in order under JavaScript `||` semantics. -/
def getClientId (h : ClientHeaders) (userId : Option String) : String :=
  if truthy userId then "user:" ++ userId.getD ""
  else
    jsOr (firstForwarded h) (jsOr h.xRealIp (jsOr h.cfConnectingIp "unknown"))

/-! ## HTTP responses and rate-limit headers -/

/-- A minimal model of a `NextResponse`: a status code and a header list.
`setHeader` models `response.headers.set` (replace-or-append). -/
structure Response where
  status : Nat
  headers : List (String × String)
deriving DecidableEq, Repr

/-- `headers.set(name, value)`: replaces the existing header of that name or
appends it. -/
def setHeader (hs : List (String × String)) (n v : String) :
    List (String × String) :=
  match hs with
  | [] => [(n, v)]
  | (n', v') :: rest =>
    if n' = n then (n, v) :: rest else (n', v') :: setHeader rest n v

/-- `headers.get(name)`. -/
def getHeader (hs : List (String × String)) (n : String) : Option String :=
  match hs with
  | [] => none
  | (n', v) :: rest => if n' = n then some v else getHeader rest n

/-- `addRateLimitHeaders(response, limit, remaining, resetTime)`: sets
`X-RateLimit-Limit`, `X-RateLimit-Remaining` and `X-RateLimit-Reset`
(the last as `Math.ceil(resetTime / 1000)`). `remaining` is an `Int`
because JavaScript arithmetic may produce `-1` for `maxRequests = 0`. -/
def addRateLimitHeaders (r : Response) (limit : Nat) (remaining : Int)
    (resetTime : Nat) : Response :=
  { r with
    headers :=
      setHeader
        (setHeader
          (setHeader r.headers "X-RateLimit-Limit" (toString limit))
          "X-RateLimit-Remaining" (toString remaining))
        "X-RateLimit-Reset" (toString ((resetTime + 999) / 1000)) }

/-! ## The rate-limiting middleware (`rateLimit`) -/

/-- The decision of one throttle call, in the vocabulary of the spec:
`allow` carries the reported remaining budget and the window reset time,
`deny` carries `retryAfterSeconds`. -/
inductive Decision where
  | allow (remaining : Int) (resetAt : Nat)
  | deny (retryAfterSeconds : Nat)
deriving DecidableEq, Repr

/-- The full outcome of one middleware call: the decision taken, the HTTP
response produced, and the store after the call. -/
structure StepOut where
  decision : Decision
  response : Response
  store : Store
deriving DecidableEq, Repr

/-- One call of the middleware returned by `rateLimit(config)`, for a fixed
key `k = pathname:clientId` at time `now`.

`doSweep` records whether the probabilistic `Math.random() < 0.01` cleanup
fired on this call; as in the source, the record is read from the store
before the sweep runs, and all writes go to the post-sweep store.
`handlerResp` is the response produced by the wrapped handler (only used on
the allow paths, as in the source). -/
def rateLimit (cfg : RateLimitConfig) (k : String) (now : Nat)
    (doSweep : Bool) (handlerResp : Response) (store : Store) : StepOut :=
  let store1 := if doSweep then cleanupExpiredEntries now store else store
  match storeGet store k with
  | none =>
    { decision := .allow ((cfg.maxRequests : Int) - 1) (now + cfg.windowMs)
      response :=
        addRateLimitHeaders handlerResp cfg.maxRequests
          ((cfg.maxRequests : Int) - 1) (now + cfg.windowMs)
      store := storeSet store1 k ⟨1, now + cfg.windowMs⟩ }
  | some record =>
    if now > record.resetTime then
      { decision := .allow ((cfg.maxRequests : Int) - 1) (now + cfg.windowMs)
        response :=
          addRateLimitHeaders handlerResp cfg.maxRequests
            ((cfg.maxRequests : Int) - 1) (now + cfg.windowMs)
        store := storeSet store1 k ⟨1, now + cfg.windowMs⟩ }
    else if record.count ≥ cfg.maxRequests then
      let retry := (record.resetTime - now + 999) / 1000
      let resp1 :=
        addRateLimitHeaders ⟨429, []⟩ cfg.maxRequests 0 record.resetTime
      { decision := .deny retry
        response :=
          { resp1 with
            headers := setHeader resp1.headers "Retry-After" (toString retry) }
        store := store1 }
    else
      let newCount := record.count + 1
      { decision := .allow ((cfg.maxRequests : Int) - newCount) record.resetTime
        response :=
          addRateLimitHeaders handlerResp cfg.maxRequests
            ((cfg.maxRequests : Int) - newCount) record.resetTime
        store := storeSet store1 k ⟨newCount, record.resetTime⟩ }

/-- A placeholder handler response for decision-level reasoning. -/
def emptyResponse : Response := ⟨200, []⟩

/-- The spec's `throttleCall` view of the middleware: the decision and the new store
of a call on which the probabilistic sweep did not fire. -/
def throttleCall (cfg : RateLimitConfig) (k : String) (now : Nat) (store : Store) :
    Decision × Store :=
  let o := rateLimit cfg k now false emptyResponse store
  (o.decision, o.store)

/-- `RateLimitPresets.auth`: 5 requests per 15 minutes. -/
def authPreset : RateLimitConfig := ⟨15 * 60 * 1000, 5⟩

/-- Run `throttleCall` over a list of call times, collecting the decisions and
threading the store. -/
def throttleCalls (cfg : RateLimitConfig) (k : String) :
    List Nat → Store → List Decision × Store
  | [], s => ([], s)
  | t :: ts, s =>
    let o := throttleCall cfg k t s
    let rest := throttleCalls cfg k ts o.2
    (o.1 :: rest.1, rest.2)

/-! ## Local storage (`src/lib/storage/local.ts`) -/

/-- Node's `path.extname`: the suffix of the basename from its last `.` to
the end, or `""` when the basename has no `.` or its only `.` is the
leading character (`.bashrc`-style names have no extension). -/
def extname (s : String) : String :=
  let cs := (splitOnChar '/' s.toList).getLastD []
  let pre := cs.reverse.takeWhile (fun c => c ≠ '.')
  if pre.length = cs.length then ""
  else if cs.length - 1 - pre.length = 0 then ""
  else String.mk ('.' :: pre.reverse)

/-- The collision-resistant name generated on upload:
``` `${userId}_${timestamp}_${randomId}${extension}` ``` where
`extension = path.extname(fileName)`. -/
def uniqueFileName (userId : String) (timestamp : Nat) (randomId : String)
    (fileName : String) : String :=
  userId ++ "_" ++ toString timestamp ++ "_" ++ randomId ++ extname fileName

/-- The two file kinds handled by the storage helper. -/
inductive FileKind where
  | resume
  | photo
deriving DecidableEq, Repr

/-- `resumes` or `photos`, as selected by `uploadFileLocally`. -/
def typeDir : FileKind → String
  | .resume => "resumes"
  | .photo => "photos"

/-- The blob store: a list of `(path, bytes)` pairs, newest first. Paths are
relative to the uploads base directory. -/
abbrev StorageState := List (String × List Nat)

/-- `uploadFileLocally(fileBuffer, fileName, userId, type)`: writes
`fileBuffer` (unchanged) under the generated unique name inside the
type-specific directory and returns the public URL path. `timestamp` and
`randomId` stand for `Date.now()` and `crypto.randomBytes(8).toString('hex')`. -/
def uploadFileLocally (store : StorageState) (fileBuffer : List Nat)
    (fileName : String) (userId : String) (kind : FileKind)
    (timestamp : Nat) (randomId : String) : StorageState × String :=
  let name := uniqueFileName userId timestamp randomId fileName
  let rel := typeDir kind ++ "/" ++ name
  ((rel, fileBuffer) :: store, "/uploads/" ++ rel)

/-! ## Photo upload route (`src/app/api/upload/photo/route.ts`) -/

/-- The uploaded file as the route sees it: original name, declared MIME
type, size in bytes, and content bytes. -/
structure UploadFile where
  name : String
  mimeType : String
  size : Nat
  bytes : List Nat
deriving DecidableEq, Repr

/-- The parts of the request the photo route consults. -/
structure UploadRequest where
  accessTokenCookie : Option String
  file : Option UploadFile
deriving DecidableEq, Repr

/-- `ALLOWED_TYPES` for photos. -/
def ALLOWED_TYPES : List String := ["image/jpeg", "image/png", "image/webp"]

/-- `MAX_FILE_SIZE = 5 * 1024 * 1024` (5MB) for photos. -/
def MAX_FILE_SIZE : Nat := 5 * 1024 * 1024

/-- The rejection/acceptance outcomes of the photo route, in source order;
`statusOfUpload` gives the HTTP status attached to each. -/
inductive UploadOutcome where
  | authRequired
  | invalidToken
  | quotaExceeded
  | noFile
  | invalidType
  | fileTooLarge
  | success (publicUrl : String)
deriving DecidableEq, Repr

/-- The HTTP status the photo route attaches to each outcome. -/
def statusOfUpload : UploadOutcome → Nat
  | .authRequired => 401
  | .invalidToken => 401
  | .quotaExceeded => 403
  | .noFile => 400
  | .invalidType => 400
  | .fileTooLarge => 400
  | .success _ => 201

/-- `POST /api/upload/photo`. `verifyTok` models `verifyAccessToken` (a
collaborator from the JWT library: `userId` or `null`, with JavaScript
falsiness on the result) and `canUpload` models `canUploadMorePhotos` (the
database quota check). The checks run in source order: authentication,
quota, file presence, declared type, size; only then is the buffer handed,
unchanged, to `uploadFileLocally`. -/
def photoUploadPOST (verifyTok : String → Option String)
    (canUpload : String → Bool) (req : UploadRequest)
    (timestamp : Nat) (randomId : String) (store : StorageState) :
    UploadOutcome × StorageState :=
  match req.accessTokenCookie with
  | none => (.authRequired, store)
  | some tok =>
    let uid := verifyTok tok
    if truthy uid = false then (.invalidToken, store)
    else
      let userId := uid.getD ""
      if canUpload userId = false then (.quotaExceeded, store)
      else
        match req.file with
        | none => (.noFile, store)
        | some f =>
          if (ALLOWED_TYPES.contains f.mimeType) = false then
            (.invalidType, store)
          else if MAX_FILE_SIZE < f.size then (.fileTooLarge, store)
          else
            let r := uploadFileLocally store f.bytes f.name userId .photo
              timestamp randomId
            (.success r.2, r.1)

/-! ## Login route (`src/app/api/auth/login/route.ts`) -/

/-- The fields of the user record the login route consults. -/
structure UserRec where
  id : String
  email : String
  passwordHash : String
  isActive : Bool
deriving DecidableEq, Repr

/-- The outcomes of the login route, in source order. -/
inductive LoginOutcome where
  | missingFields
  | configError
  | invalidCredentials
  | deactivated
  | success
deriving DecidableEq, Repr

/-- The HTTP status the login route attaches to each outcome. -/
def statusOfLogin : LoginOutcome → Nat
  | .missingFields => 400
  | .configError => 500
  | .invalidCredentials => 401
  | .deactivated => 403
  | .success => 200

/-- `POST /api/auth/login`. `jwtSecret` is `process.env.JWT_SECRET` (absent
or empty is falsy); `findUser` and `verifyPwd` model the database lookup
and password check collaborators. The route validates the body, then checks
the secret per request — answering `500 Server configuration error` when it
is missing — then authenticates. No length check on the secret exists
anywhere in the route. -/
def loginPOST (findUser : String → Option UserRec)
    (verifyPwd : String → String → Bool) (jwtSecret : Option String)
    (email password : String) : LoginOutcome :=
  if email = "" ∨ password = "" then .missingFields
  else if truthy jwtSecret = false then .configError
  else
    match findUser email with
    | none => .invalidCredentials
    | some u =>
      if u.passwordHash = "" then .invalidCredentials
      else if verifyPwd password u.passwordHash = false then
        .invalidCredentials
      else if u.isActive = false then .deactivated
      else .success

/-! ## Helper lemmas about the store and header maps -/

theorem storeGet_storeSet_self (s : Store) (k : String) (r : RateRecord) :
    storeGet (storeSet s k r) k = some r := by
  induction s with
  | nil => simp [storeGet, storeSet]
  | cons p rest ih =>
    obtain ⟨k', r'⟩ := p
    by_cases h : k' = k
    · simp [storeGet, storeSet, h]
    · simp [storeGet, storeSet, h, ih]

theorem storeGet_storeSet_other (s : Store) (k k' : String) (r : RateRecord)
    (h : k ≠ k') : storeGet (storeSet s k r) k' = storeGet s k' := by
  induction s with
  | nil => simp [storeGet, storeSet, h]
  | cons p rest ih =>
    obtain ⟨k₀, r₀⟩ := p
    by_cases h₀ : k₀ = k
    · simp [storeGet, storeSet, h₀, h]
    · simp [storeGet, storeSet, h₀, ih]

/-- Well-formedness of a store as a model of a JavaScript `Map`: every key
is bound at most once. `rateLimitStore` always satisfies this. -/
def StoreWF (s : Store) : Prop := (s.map Prod.fst).Nodup

theorem storeGet_eq_none_of_not_mem (s : Store) (k : String)
    (h : k ∉ s.map Prod.fst) : storeGet s k = none := by
  induction s with
  | nil => simp [storeGet]
  | cons p rest ih =>
    obtain ⟨k₀, r₀⟩ := p
    simp only [List.map_cons, List.mem_cons, not_or] at h
    have hne : ¬ k₀ = k := fun hk => h.1 hk.symm
    simp [storeGet, hne, ih h.2]

theorem storeGet_cleanup (now : Nat) (s : Store) (k : String)
    (hwf : StoreWF s) :
    storeGet (cleanupExpiredEntries now s) k =
      match storeGet s k with
      | none => none
      | some r => if now ≤ r.resetTime then some r else none := by
  induction s with
  | nil => simp [storeGet, cleanupExpiredEntries]
  | cons p rest ih =>
    obtain ⟨k₀, r₀⟩ := p
    simp only [StoreWF, List.map_cons, List.nodup_cons] at hwf
    by_cases hr : now ≤ r₀.resetTime
    · by_cases hk : k₀ = k
      · simp [storeGet, cleanupExpiredEntries, hr, hk]
      · simpa [storeGet, cleanupExpiredEntries, hr, hk] using ih hwf.2
    · by_cases hk : k₀ = k
      · subst hk
        have hnone : storeGet (cleanupExpiredEntries now rest) k₀ = none := by
          apply storeGet_eq_none_of_not_mem
          intro hmem
          rcases List.mem_map.mp hmem with ⟨p, hp, hpk⟩
          exact hwf.1 (List.mem_map.mpr ⟨p, List.mem_of_mem_filter hp, hpk⟩)
        simp only [cleanupExpiredEntries] at hnone
        simp [storeGet, cleanupExpiredEntries, hr, hnone]
      · simpa [storeGet, cleanupExpiredEntries, hr, hk] using ih hwf.2

theorem getHeader_setHeader_self (hs : List (String × String)) (n v : String) :
    getHeader (setHeader hs n v) n = some v := by
  induction hs with
  | nil => simp [getHeader, setHeader]
  | cons p rest ih =>
    obtain ⟨n', v'⟩ := p
    by_cases h : n' = n
    · simp [getHeader, setHeader, h]
    · simp [getHeader, setHeader, h, ih]

theorem getHeader_setHeader_other (hs : List (String × String))
    (n n' v : String) (h : n ≠ n') :
    getHeader (setHeader hs n v) n' = getHeader hs n' := by
  induction hs with
  | nil => simp [getHeader, setHeader, h]
  | cons p rest ih =>
    obtain ⟨n₀, v₀⟩ := p
    by_cases h₀ : n₀ = n
    · simp [getHeader, setHeader, h₀, h]
    · simp [getHeader, setHeader, h₀, ih]

/-! ## Helper lemmas: the four branches of one throttle call -/

theorem throttleCall_fresh (cfg : RateLimitConfig) (k : String) (now : Nat)
    (s : Store) (h : storeGet s k = none) :
    throttleCall cfg k now s =
      (.allow ((cfg.maxRequests : Int) - 1) (now + cfg.windowMs),
       storeSet s k ⟨1, now + cfg.windowMs⟩) := by
  simp [throttleCall, rateLimit, h]

theorem throttleCall_expired (cfg : RateLimitConfig) (k : String) (now : Nat)
    (s : Store) (r : RateRecord) (hg : storeGet s k = some r)
    (h : r.resetTime < now) :
    throttleCall cfg k now s =
      (.allow ((cfg.maxRequests : Int) - 1) (now + cfg.windowMs),
       storeSet s k ⟨1, now + cfg.windowMs⟩) := by
  simp [throttleCall, rateLimit, hg, h]

theorem throttleCall_deny (cfg : RateLimitConfig) (k : String) (now : Nat)
    (s : Store) (r : RateRecord) (hg : storeGet s k = some r)
    (h : now ≤ r.resetTime) (hc : cfg.maxRequests ≤ r.count) :
    throttleCall cfg k now s = (.deny ((r.resetTime - now + 999) / 1000), s) := by
  simp [throttleCall, rateLimit, hg, Nat.not_lt.mpr h, hc]

theorem throttleCall_increment (cfg : RateLimitConfig) (k : String) (now : Nat)
    (s : Store) (r : RateRecord) (hg : storeGet s k = some r)
    (h : now ≤ r.resetTime) (hc : r.count < cfg.maxRequests) :
    throttleCall cfg k now s =
      (.allow ((cfg.maxRequests : Int) - (r.count + 1)) r.resetTime,
       storeSet s k ⟨r.count + 1, r.resetTime⟩) := by
  simp [throttleCall, rateLimit, hg, Nat.not_lt.mpr h, Nat.not_le.mpr hc]

/-! ## Helper lemmas: the middleware with sweep and response -/

theorem rateLimit_store_fresh (cfg : RateLimitConfig) (k : String) (now : Nat)
    (doSweep : Bool) (hresp : Response) (s : Store)
    (h : storeGet s k = none) :
    (rateLimit cfg k now doSweep hresp s).store =
      storeSet (if doSweep then cleanupExpiredEntries now s else s) k
        ⟨1, now + cfg.windowMs⟩ ∧
    (rateLimit cfg k now doSweep hresp s).decision =
      .allow ((cfg.maxRequests : Int) - 1) (now + cfg.windowMs) := by
  simp [rateLimit, h]

theorem rateLimit_store_expired (cfg : RateLimitConfig) (k : String)
    (now : Nat) (doSweep : Bool) (hresp : Response) (s : Store)
    (r : RateRecord) (hg : storeGet s k = some r) (h : r.resetTime < now) :
    (rateLimit cfg k now doSweep hresp s).store =
      storeSet (if doSweep then cleanupExpiredEntries now s else s) k
        ⟨1, now + cfg.windowMs⟩ ∧
    (rateLimit cfg k now doSweep hresp s).decision =
      .allow ((cfg.maxRequests : Int) - 1) (now + cfg.windowMs) := by
  simp [rateLimit, hg, h]

theorem rateLimit_store_deny (cfg : RateLimitConfig) (k : String) (now : Nat)
    (doSweep : Bool) (hresp : Response) (s : Store) (r : RateRecord)
    (hg : storeGet s k = some r) (h : now ≤ r.resetTime)
    (hc : cfg.maxRequests ≤ r.count) :
    (rateLimit cfg k now doSweep hresp s).store =
      (if doSweep then cleanupExpiredEntries now s else s) ∧
    (rateLimit cfg k now doSweep hresp s).decision =
      .deny ((r.resetTime - now + 999) / 1000) := by
  simp [rateLimit, hg, Nat.not_lt.mpr h, hc]

theorem rateLimit_store_increment (cfg : RateLimitConfig) (k : String)
    (now : Nat) (doSweep : Bool) (hresp : Response) (s : Store)
    (r : RateRecord) (hg : storeGet s k = some r) (h : now ≤ r.resetTime)
    (hc : r.count < cfg.maxRequests) :
    (rateLimit cfg k now doSweep hresp s).store =
      storeSet (if doSweep then cleanupExpiredEntries now s else s) k
        ⟨r.count + 1, r.resetTime⟩ ∧
    (rateLimit cfg k now doSweep hresp s).decision =
      .allow ((cfg.maxRequests : Int) - (r.count + 1)) r.resetTime := by
  simp [rateLimit, hg, Nat.not_lt.mpr h, Nat.not_le.mpr hc]

theorem getHeader_addRateLimitHeaders (r : Response) (lim : Nat) (rem : Int)
    (rt : Nat) :
    getHeader (addRateLimitHeaders r lim rem rt).headers "X-RateLimit-Limit" =
      some (toString lim) ∧
    getHeader (addRateLimitHeaders r lim rem rt).headers
      "X-RateLimit-Remaining" = some (toString rem) ∧
    getHeader (addRateLimitHeaders r lim rem rt).headers "X-RateLimit-Reset" =
      some (toString ((rt + 999) / 1000)) ∧
    (addRateLimitHeaders r lim rem rt).status = r.status := by
  simp only [addRateLimitHeaders]
  refine ⟨?_, ?_, ?_, by trivial⟩
  · rw [getHeader_setHeader_other _ _ _ _ (by decide),
      getHeader_setHeader_other _ _ _ _ (by decide),
      getHeader_setHeader_self]
  · rw [getHeader_setHeader_other _ _ _ _ (by decide),
      getHeader_setHeader_self]
  · rw [getHeader_setHeader_self]

theorem rateLimit_response_fresh (cfg : RateLimitConfig) (k : String)
    (now : Nat) (doSweep : Bool) (hresp : Response) (s : Store)
    (h : storeGet s k = none) :
    (rateLimit cfg k now doSweep hresp s).response =
      addRateLimitHeaders hresp cfg.maxRequests ((cfg.maxRequests : Int) - 1)
        (now + cfg.windowMs) := by
  simp [rateLimit, h]

theorem rateLimit_response_expired (cfg : RateLimitConfig) (k : String)
    (now : Nat) (doSweep : Bool) (hresp : Response) (s : Store)
    (r : RateRecord) (hg : storeGet s k = some r) (h : r.resetTime < now) :
    (rateLimit cfg k now doSweep hresp s).response =
      addRateLimitHeaders hresp cfg.maxRequests ((cfg.maxRequests : Int) - 1)
        (now + cfg.windowMs) := by
  simp [rateLimit, hg, h]

theorem rateLimit_response_deny (cfg : RateLimitConfig) (k : String)
    (now : Nat) (doSweep : Bool) (hresp : Response) (s : Store)
    (r : RateRecord) (hg : storeGet s k = some r) (h : now ≤ r.resetTime)
    (hc : cfg.maxRequests ≤ r.count) :
    (rateLimit cfg k now doSweep hresp s).response =
      { addRateLimitHeaders ⟨429, []⟩ cfg.maxRequests 0 r.resetTime with
        headers :=
          setHeader
            (addRateLimitHeaders ⟨429, []⟩ cfg.maxRequests 0
              r.resetTime).headers
            "Retry-After" (toString ((r.resetTime - now + 999) / 1000)) } := by
  simp [rateLimit, hg, Nat.not_lt.mpr h, hc]

theorem rateLimit_response_increment (cfg : RateLimitConfig) (k : String)
    (now : Nat) (doSweep : Bool) (hresp : Response) (s : Store)
    (r : RateRecord) (hg : storeGet s k = some r) (h : now ≤ r.resetTime)
    (hc : r.count < cfg.maxRequests) :
    (rateLimit cfg k now doSweep hresp s).response =
      addRateLimitHeaders hresp cfg.maxRequests
        ((cfg.maxRequests : Int) - (r.count + 1)) r.resetTime := by
  simp [rateLimit, hg, Nat.not_lt.mpr h, Nat.not_le.mpr hc]

/-! ## Claim theorems -/

/-- C4: every `throttleCall` call follows the contract: a missing or expired record
starts a fresh window with count 1 and allows; a live record at the limit
denies with `retryAfterSeconds = ceil((windowResetAt - now)/1000)` (the
bounds exhibited make `(d + 999) / 1000` the integer ceiling of `d / 1000`);
otherwise the count is incremented and the call allows with
`remaining = maxRequests - count` for the post-increment count. -/
theorem throttleCall_meets_contract (cfg : RateLimitConfig) (k : String) (now : Nat)
    (s : Store) :
    (storeGet s k = none →
      throttleCall cfg k now s =
        (.allow ((cfg.maxRequests : Int) - 1) (now + cfg.windowMs),
         storeSet s k ⟨1, now + cfg.windowMs⟩)) ∧
    (∀ r, storeGet s k = some r → r.resetTime < now →
      throttleCall cfg k now s =
        (.allow ((cfg.maxRequests : Int) - 1) (now + cfg.windowMs),
         storeSet s k ⟨1, now + cfg.windowMs⟩)) ∧
    (∀ r, storeGet s k = some r → now ≤ r.resetTime →
      cfg.maxRequests ≤ r.count →
      throttleCall cfg k now s = (.deny ((r.resetTime - now + 999) / 1000), s) ∧
      r.resetTime - now ≤ 1000 * ((r.resetTime - now + 999) / 1000) ∧
      1000 * ((r.resetTime - now + 999) / 1000) < r.resetTime - now + 1000) ∧
    (∀ r, storeGet s k = some r → now ≤ r.resetTime →
      r.count < cfg.maxRequests →
      throttleCall cfg k now s =
        (.allow ((cfg.maxRequests : Int) - (r.count + 1)) r.resetTime,
         storeSet s k ⟨r.count + 1, r.resetTime⟩)) := by
  refine ⟨fun h => throttleCall_fresh cfg k now s h,
    fun r hg h => throttleCall_expired cfg k now s r hg h,
    fun r hg h hc =>
      ⟨throttleCall_deny cfg k now s r hg h hc, by omega, by omega⟩,
    fun r hg h hc => throttleCall_increment cfg k now s r hg h hc⟩

/-- C4 witness: a concrete call in each regime; at the limit the call is
denied with the ceiling of `(1000 - 100) / 1000` seconds. -/
theorem throttleCall_meets_contract_witness :
    throttleCall authPreset "k" 100 [("k", ⟨5, 1000⟩)] =
      (.deny 1, [("k", ⟨5, 1000⟩)]) := by
  have h := ((throttleCall_meets_contract authPreset "k" 100
    [("k", ⟨5, 1000⟩)]).2.2.1 ⟨5, 1000⟩ (by decide) (by decide)
    (by decide)).1
  simpa using h

/-- C5: for a key currently bound to a record, a call inside the record's
window (`now ≤ windowResetAt`) leaves a record whose count is at least the
old count with the same reset time (non-decreasing within the window), and
a call after expiry replaces the record with a fresh one of count 1 rather
than incrementing it; this holds whether or not the probabilistic sweep
fires. -/
theorem throttle_count_monotone (cfg : RateLimitConfig) (k : String)
    (now : Nat) (doSweep : Bool) (hresp : Response) (s : Store)
    (hwf : StoreWF s) (r : RateRecord) (hg : storeGet s k = some r) :
    (now ≤ r.resetTime →
      ∃ r', storeGet (rateLimit cfg k now doSweep hresp s).store k = some r' ∧
        r.count ≤ r'.count ∧ r'.resetTime = r.resetTime) ∧
    (r.resetTime < now →
      storeGet (rateLimit cfg k now doSweep hresp s).store k =
        some ⟨1, now + cfg.windowMs⟩) := by
  constructor
  · intro hnow
    by_cases hc : cfg.maxRequests ≤ r.count
    · rw [(rateLimit_store_deny cfg k now doSweep hresp s r hg hnow hc).1]
      refine ⟨r, ?_, le_refl _, rfl⟩
      cases doSweep with
      | false => simpa using hg
      | true => simp [storeGet_cleanup now s k hwf, hg, hnow]
    · rw [(rateLimit_store_increment cfg k now doSweep hresp s r hg hnow
        (Nat.not_le.mp hc)).1]
      exact ⟨⟨r.count + 1, r.resetTime⟩, storeGet_storeSet_self _ _ _,
        Nat.le_succ _, rfl⟩
  · intro hexp
    rw [(rateLimit_store_expired cfg k now doSweep hresp s r hg hexp).1]
    exact storeGet_storeSet_self _ _ _

/-- C5 witness: at the limit inside the window the record is unchanged, and
after expiry it is replaced by a fresh record with count 1. -/
theorem throttle_count_monotone_witness :
    storeGet (rateLimit authPreset "k" 100 false emptyResponse
      [("k", ⟨5, 1000⟩)]).store "k" = some ⟨5, 1000⟩ ∧
    storeGet (rateLimit authPreset "k" 2000 true emptyResponse
      [("k", ⟨5, 1000⟩)]).store "k" = some ⟨1, 2000 + 900000⟩ := by
  constructor
  · obtain ⟨r', hr', hle, hrt⟩ :=
      (throttle_count_monotone authPreset "k" 100 false emptyResponse
        [("k", ⟨5, 1000⟩)] (by simp [StoreWF]) ⟨5, 1000⟩ (by decide)).1
        (by decide)
    have : r' = ⟨5, 1000⟩ := by
      have hc : storeGet (rateLimit authPreset "k" 100 false emptyResponse
          [("k", ⟨5, 1000⟩)]).store "k" = some ⟨5, 1000⟩ := by decide
      rw [hc] at hr'
      exact (Option.some.injEq _ _ ▸ hr').symm
    rw [this] at hr'
    exact hr'
  · have h :=
      (throttle_count_monotone authPreset "k" 2000 true emptyResponse
        [("k", ⟨5, 1000⟩)] (by simp [StoreWF]) ⟨5, 1000⟩ (by decide)).2
        (by decide)
    simpa [authPreset] using h

/-- C10: a denied call leaves the store exactly as the sweep (when it fired)
left it: with no sweep the store is unchanged; with the sweep, the denied
key's record — necessarily unexpired — is untouched, and every other key is
either untouched or was an already-expired record removed by the sweep. -/
theorem deny_leaves_store_intact (cfg : RateLimitConfig) (k : String)
    (now : Nat) (doSweep : Bool) (hresp : Response) (s : Store)
    (hwf : StoreWF s) (ra : Nat)
    (hd : (rateLimit cfg k now doSweep hresp s).decision = .deny ra) :
    (rateLimit cfg k now doSweep hresp s).store =
      (if doSweep then cleanupExpiredEntries now s else s) ∧
    storeGet (rateLimit cfg k now doSweep hresp s).store k = storeGet s k ∧
    (∀ k', storeGet (rateLimit cfg k now doSweep hresp s).store k' =
        storeGet s k' ∨
      (storeGet (rateLimit cfg k now doSweep hresp s).store k' = none ∧
       ∃ r, storeGet s k' = some r ∧ r.resetTime < now)) := by
  cases hm : storeGet s k with
  | none =>
    rw [(rateLimit_store_fresh cfg k now doSweep hresp s hm).2] at hd
    simp at hd
  | some r =>
    by_cases hexp : r.resetTime < now
    · rw [(rateLimit_store_expired cfg k now doSweep hresp s r hm hexp).2]
        at hd
      simp at hd
    · have hnow : now ≤ r.resetTime := Nat.not_lt.mp hexp
      by_cases hc : cfg.maxRequests ≤ r.count
      · have hst := (rateLimit_store_deny cfg k now doSweep hresp s r hm
          hnow hc).1
        cases doSweep with
        | false =>
          have hst' : (rateLimit cfg k now false hresp s).store = s := by
            simpa using hst
          refine ⟨by simpa using hst', ?_, ?_⟩
          · rw [hst']
            exact hm
          · intro k'
            exact Or.inl (by rw [hst'])
        | true =>
          have hst' : (rateLimit cfg k now true hresp s).store =
              cleanupExpiredEntries now s := by
            simpa using hst
          refine ⟨by simpa using hst', ?_, ?_⟩
          · rw [hst', storeGet_cleanup now s k hwf, hm]
            simp [hnow]
          · intro k'
            rw [hst', storeGet_cleanup now s k' hwf]
            cases hm' : storeGet s k' with
            | none => simp
            | some r' =>
              by_cases hr' : now ≤ r'.resetTime
              · simp [hr']
              · exact Or.inr ⟨by simp [hr'], r', rfl, Nat.not_le.mp hr'⟩
      · rw [(rateLimit_store_increment cfg k now doSweep hresp s r hm hnow
          (Nat.not_le.mp hc)).2] at hd
        simp at hd

/-- C10 witness: a denied call with the sweep firing keeps the denied key's
live record and removes only the expired record of another key. -/
theorem deny_leaves_store_intact_witness :
    (rateLimit authPreset "k" 100 true emptyResponse
        [("k", ⟨5, 1000⟩), ("old", ⟨2, 50⟩)]).store =
      cleanupExpiredEntries 100 [("k", ⟨5, 1000⟩), ("old", ⟨2, 50⟩)] ∧
    storeGet (rateLimit authPreset "k" 100 true emptyResponse
        [("k", ⟨5, 1000⟩), ("old", ⟨2, 50⟩)]).store "k" = some ⟨5, 1000⟩ := by
  have h := deny_leaves_store_intact authPreset "k" 100 true emptyResponse
    [("k", ⟨5, 1000⟩), ("old", ⟨2, 50⟩)] (by simp [StoreWF]) 1 (by decide)
  refine ⟨by simpa using h.1, ?_⟩
  rw [h.2.1]
  decide

/-- C8: every response the middleware produces carries the
`X-RateLimit-Limit`, `X-RateLimit-Remaining` and `X-RateLimit-Reset`
headers, and a denied response additionally carries a `Retry-After` header,
HTTP status 429, and `X-RateLimit-Remaining` equal to `"0"`. -/
theorem rate_limited_response_headers (cfg : RateLimitConfig) (k : String)
    (now : Nat) (doSweep : Bool) (hresp : Response) (s : Store) :
    getHeader (rateLimit cfg k now doSweep hresp s).response.headers
      "X-RateLimit-Limit" = some (toString cfg.maxRequests) ∧
    (getHeader (rateLimit cfg k now doSweep hresp s).response.headers
      "X-RateLimit-Remaining").isSome = true ∧
    (getHeader (rateLimit cfg k now doSweep hresp s).response.headers
      "X-RateLimit-Reset").isSome = true ∧
    (∀ ra, (rateLimit cfg k now doSweep hresp s).decision = .deny ra →
      (rateLimit cfg k now doSweep hresp s).response.status = 429 ∧
      getHeader (rateLimit cfg k now doSweep hresp s).response.headers
        "Retry-After" = some (toString ra) ∧
      getHeader (rateLimit cfg k now doSweep hresp s).response.headers
        "X-RateLimit-Remaining" = some "0") := by
  cases hm : storeGet s k with
  | none =>
    rw [rateLimit_response_fresh cfg k now doSweep hresp s hm]
    obtain ⟨e1, e2, e3, _⟩ := getHeader_addRateLimitHeaders hresp
      cfg.maxRequests ((cfg.maxRequests : Int) - 1) (now + cfg.windowMs)
    refine ⟨e1, by simp [e2], by simp [e3], ?_⟩
    intro ra hra
    rw [(rateLimit_store_fresh cfg k now doSweep hresp s hm).2] at hra
    simp at hra
  | some r =>
    by_cases hexp : r.resetTime < now
    · rw [rateLimit_response_expired cfg k now doSweep hresp s r hm hexp]
      obtain ⟨e1, e2, e3, _⟩ := getHeader_addRateLimitHeaders hresp
        cfg.maxRequests ((cfg.maxRequests : Int) - 1) (now + cfg.windowMs)
      refine ⟨e1, by simp [e2], by simp [e3], ?_⟩
      intro ra hra
      rw [(rateLimit_store_expired cfg k now doSweep hresp s r hm hexp).2]
        at hra
      simp at hra
    · have hnow : now ≤ r.resetTime := Nat.not_lt.mp hexp
      by_cases hc : cfg.maxRequests ≤ r.count
      · rw [rateLimit_response_deny cfg k now doSweep hresp s r hm hnow hc]
        obtain ⟨e1, e2, e3, e4⟩ := getHeader_addRateLimitHeaders
          (⟨429, []⟩ : Response) cfg.maxRequests 0 r.resetTime
        have hz : (toString (0 : Int)) = "0" := by decide
        refine ⟨?_, ?_, ?_, ?_⟩
        · simpa [getHeader_setHeader_other _ _ _ _
            (by decide : "Retry-After" ≠ "X-RateLimit-Limit")] using e1
        · simp [getHeader_setHeader_other _ _ _ _
            (by decide : "Retry-After" ≠ "X-RateLimit-Remaining"), e2]
        · simp [getHeader_setHeader_other _ _ _ _
            (by decide : "Retry-After" ≠ "X-RateLimit-Reset"), e3]
        · intro ra hra
          rw [(rateLimit_store_deny cfg k now doSweep hresp s r hm hnow
            hc).2] at hra
          have hra' : (r.resetTime - now + 999) / 1000 = ra := by
            simpa using hra
          refine ⟨by simpa using e4, ?_, ?_⟩
          · rw [getHeader_setHeader_self, hra']
          · simpa [getHeader_setHeader_other _ _ _ _
              (by decide : "Retry-After" ≠ "X-RateLimit-Remaining"), hz]
              using e2
      · rw [rateLimit_response_increment cfg k now doSweep hresp s r hm hnow
          (Nat.not_le.mp hc)]
        obtain ⟨e1, e2, e3, _⟩ := getHeader_addRateLimitHeaders hresp
          cfg.maxRequests ((cfg.maxRequests : Int) - (r.count + 1))
          r.resetTime
        refine ⟨e1, by simp [e2], by simp [e3], ?_⟩
        intro ra hra
        rw [(rateLimit_store_increment cfg k now doSweep hresp s r hm hnow
          (Nat.not_le.mp hc)).2] at hra
        simp at hra

/-- C8 witness: a concrete denied call has status 429, `Retry-After: 1` and
`X-RateLimit-Remaining: 0`. -/
theorem rate_limited_response_headers_witness :
    (rateLimit authPreset "k" 100 false emptyResponse
      [("k", ⟨5, 1000⟩)]).response.status = 429 ∧
    getHeader (rateLimit authPreset "k" 100 false emptyResponse
      [("k", ⟨5, 1000⟩)]).response.headers "Retry-After" = some "1" ∧
    getHeader (rateLimit authPreset "k" 100 false emptyResponse
      [("k", ⟨5, 1000⟩)]).response.headers "X-RateLimit-Remaining" =
      some "0" := by
  have h := (rate_limited_response_headers authPreset "k" 100 false
    emptyResponse [("k", ⟨5, 1000⟩)]).2.2.2 1 (by decide)
  exact ⟨h.1, h.2.1.trans (by decide), h.2.2⟩

/-- C3 counterexample: with the auth preset (5 requests / 900000 ms), five
calls at time 0 and a sixth call at exactly time 900000 — still inside the
window by the code's own expiry test `now > resetTime`, as shown by the call
being denied rather than starting a fresh window — produce a denial whose
`retryAfterSeconds` is `ceil((900000 - 900000)/1000) = 0`, not strictly
positive. -/
theorem throttle_sixth_call_at_window_reset_retry_zero :
    (throttleCalls authPreset "k" [0, 0, 0, 0, 0, 900000] []).1 =
      [.allow 4 900000, .allow 3 900000, .allow 2 900000, .allow 1 900000,
       .allow 0 900000, .deny 0] := by
  decide

/-- C3 (amended): with `maxRequests = 5, windowMs = 900000`, the 1st–5th
calls within the window return Allow; a 6th call at `t6` not past the reset
time is denied with `retryAfterSeconds = ceil((resetAt - t6)/1000)`, which
is strictly positive whenever `t6` is strictly before the reset time (and 0
exactly at it); any call strictly after the reset time returns Allow with a
fresh window of count 1. -/
theorem throttle_auth_window_behavior (k : String)
    (t1 t2 t3 t4 t5 t6 : Nat)
    (h2 : t2 ≤ t1 + 900000) (h3 : t3 ≤ t1 + 900000)
    (h4 : t4 ≤ t1 + 900000) (h5 : t5 ≤ t1 + 900000)
    (h6 : t6 ≤ t1 + 900000) :
    throttleCalls authPreset k [t1, t2, t3, t4, t5, t6] [] =
      ([.allow 4 (t1 + 900000), .allow 3 (t1 + 900000),
        .allow 2 (t1 + 900000), .allow 1 (t1 + 900000),
        .allow 0 (t1 + 900000), .deny ((t1 + 900000 - t6 + 999) / 1000)],
       [(k, ⟨5, t1 + 900000⟩)]) ∧
    (t6 < t1 + 900000 → 0 < (t1 + 900000 - t6 + 999) / 1000) ∧
    (∀ t7, t1 + 900000 < t7 →
      throttleCall authPreset k t7 [(k, ⟨5, t1 + 900000⟩)] =
        (.allow 4 (t7 + 900000), [(k, ⟨1, t7 + 900000⟩)])) := by
  have e1 : throttleCall authPreset k t1 [] =
      (.allow 4 (t1 + 900000), [(k, ⟨1, t1 + 900000⟩)]) := by
    have h := throttleCall_fresh authPreset k t1 [] rfl
    norm_num [authPreset, storeSet] at h
    exact h
  have e2 : throttleCall authPreset k t2 [(k, ⟨1, t1 + 900000⟩)] =
      (.allow 3 (t1 + 900000), [(k, ⟨2, t1 + 900000⟩)]) := by
    have h := throttleCall_increment authPreset k t2 [(k, ⟨1, t1 + 900000⟩)]
      ⟨1, t1 + 900000⟩ (by simp [storeGet]) (by simpa using h2)
      (by norm_num [authPreset])
    norm_num [authPreset, storeSet] at h
    exact h
  have e3 : throttleCall authPreset k t3 [(k, ⟨2, t1 + 900000⟩)] =
      (.allow 2 (t1 + 900000), [(k, ⟨3, t1 + 900000⟩)]) := by
    have h := throttleCall_increment authPreset k t3 [(k, ⟨2, t1 + 900000⟩)]
      ⟨2, t1 + 900000⟩ (by simp [storeGet]) (by simpa using h3)
      (by norm_num [authPreset])
    norm_num [authPreset, storeSet] at h
    exact h
  have e4 : throttleCall authPreset k t4 [(k, ⟨3, t1 + 900000⟩)] =
      (.allow 1 (t1 + 900000), [(k, ⟨4, t1 + 900000⟩)]) := by
    have h := throttleCall_increment authPreset k t4 [(k, ⟨3, t1 + 900000⟩)]
      ⟨3, t1 + 900000⟩ (by simp [storeGet]) (by simpa using h4)
      (by norm_num [authPreset])
    norm_num [authPreset, storeSet] at h
    exact h
  have e5 : throttleCall authPreset k t5 [(k, ⟨4, t1 + 900000⟩)] =
      (.allow 0 (t1 + 900000), [(k, ⟨5, t1 + 900000⟩)]) := by
    have h := throttleCall_increment authPreset k t5 [(k, ⟨4, t1 + 900000⟩)]
      ⟨4, t1 + 900000⟩ (by simp [storeGet]) (by simpa using h5)
      (by norm_num [authPreset])
    norm_num [authPreset, storeSet] at h
    exact h
  have e6 : throttleCall authPreset k t6 [(k, ⟨5, t1 + 900000⟩)] =
      (.deny ((t1 + 900000 - t6 + 999) / 1000), [(k, ⟨5, t1 + 900000⟩)]) := by
    have h := throttleCall_deny authPreset k t6 [(k, ⟨5, t1 + 900000⟩)]
      ⟨5, t1 + 900000⟩ (by simp [storeGet]) (by simpa using h6)
      (by norm_num [authPreset])
    simpa using h
  refine ⟨?_, fun hlt => by omega, ?_⟩
  · simp [throttleCalls, e1, e2, e3, e4, e5, e6]
  · intro t7 h7
    have h := throttleCall_expired authPreset k t7 [(k, ⟨5, t1 + 900000⟩)]
      ⟨5, t1 + 900000⟩ (by simp [storeGet]) (by simpa using h7)
    norm_num [authPreset, storeSet] at h
    exact h

/-- C3 witness: all five calls at distinct early times allow, the sixth
call at time 5 is denied with a 900-second retry, and a call after the
window reset starts a fresh window. -/
theorem throttle_auth_window_witness :
    throttleCalls authPreset "k" [0, 1, 2, 3, 4, 5] [] =
      ([.allow 4 900000, .allow 3 900000, .allow 2 900000, .allow 1 900000,
        .allow 0 900000, .deny 900], [("k", ⟨5, 900000⟩)]) ∧
    throttleCall authPreset "k" 900001 [("k", ⟨5, 900000⟩)] =
      (.allow 4 1800001, [("k", ⟨1, 1800001⟩)]) := by
  have h := throttle_auth_window_behavior "k" 0 1 2 3 4 5 (by decide)
    (by decide) (by decide) (by decide) (by decide)
  constructor
  · have h1 := h.1
    norm_num at h1
    exact h1
  · have h3 := h.2.2 900001 (by decide)
    norm_num at h3
    exact h3

/-- C7 counterexample: with a forwarded-for header present whose first
comma-separated entry is empty (`",2.2.2.2"`), the client key is the
`x-real-ip` value `"9.9.9.9"`, not the first forwarded-for address: the
empty first component is falsy under JavaScript `||` and the code falls
through, even though the header is present (and even contains the address
`"2.2.2.2"`). -/
theorem clientId_blank_first_forwarded_entry_falls_through :
    getClientId ⟨some ",2.2.2.2", some "9.9.9.9", none⟩ none = "9.9.9.9" ∧
    (ClientHeaders.xForwardedFor
      ⟨some ",2.2.2.2", some "9.9.9.9", none⟩).isSome = true ∧
    firstForwarded ⟨some ",2.2.2.2", some "9.9.9.9", none⟩ = some "" ∧
    ((splitOnChar ',' ",2.2.2.2".toList).map
      (fun g => String.mk (jsTrim g))) = ["", "2.2.2.2"] := by
  decide

/-- C7 (amended): a truthy authenticated identity gives `user:<id>`;
otherwise the first trimmed forwarded-for entry is used when it is
non-empty, else the `x-real-ip` header when present and non-empty, else the
`cf-connecting-ip` header when present and non-empty, else the literal
`"unknown"`. -/
theorem getClientId_resolution (h : ClientHeaders) (userId : Option String) :
    (truthy userId = true →
      getClientId h userId = "user:" ++ userId.getD "") ∧
    (truthy userId = false →
      (∀ a, firstForwarded h = some a → a ≠ "" →
        getClientId h userId = a) ∧
      (truthy (firstForwarded h) = false → truthy h.xRealIp = true →
        getClientId h userId = h.xRealIp.getD "") ∧
      (truthy (firstForwarded h) = false → truthy h.xRealIp = false →
        truthy h.cfConnectingIp = true →
        getClientId h userId = h.cfConnectingIp.getD "") ∧
      (truthy (firstForwarded h) = false → truthy h.xRealIp = false →
        truthy h.cfConnectingIp = false →
        getClientId h userId = "unknown")) := by
  constructor
  · intro hu
    simp [getClientId, hu]
  · intro hu
    have hid : getClientId h userId =
        jsOr (firstForwarded h)
          (jsOr h.xRealIp (jsOr h.cfConnectingIp "unknown")) := by
      simp [getClientId, hu]
    have hfwd : truthy (firstForwarded h) = false →
        jsOr (firstForwarded h)
          (jsOr h.xRealIp (jsOr h.cfConnectingIp "unknown")) =
        jsOr h.xRealIp (jsOr h.cfConnectingIp "unknown") := by
      intro hf
      cases hff : firstForwarded h with
      | none => simp [jsOr]
      | some a =>
        rw [hff] at hf
        simp [truthy] at hf
        simp [jsOr, hf]
    refine ⟨?_, ?_, ?_, ?_⟩
    · intro a ha hne
      rw [hid, ha]
      simp [jsOr, hne]
    · intro hf hr
      rw [hid, hfwd hf]
      cases hrr : h.xRealIp with
      | none => rw [hrr] at hr; simp [truthy] at hr
      | some v =>
        rw [hrr] at hr
        simp [truthy] at hr
        simp [jsOr, hr]
    · intro hf hr hcf
      rw [hid, hfwd hf]
      cases hrr : h.xRealIp with
      | none =>
        cases hcc : h.cfConnectingIp with
        | none => rw [hcc] at hcf; simp [truthy] at hcf
        | some w =>
          rw [hcc] at hcf
          simp [truthy] at hcf
          simp [jsOr, hcf]
      | some v =>
        rw [hrr] at hr
        simp [truthy] at hr
        cases hcc : h.cfConnectingIp with
        | none => rw [hcc] at hcf; simp [truthy] at hcf
        | some w =>
          rw [hcc] at hcf
          simp [truthy] at hcf
          simp [jsOr, hr, hcf]
    · intro hf hr hcf
      rw [hid, hfwd hf]
      cases hrr : h.xRealIp with
      | none =>
        cases hcc : h.cfConnectingIp with
        | none => simp [jsOr]
        | some w =>
          rw [hcc] at hcf
          simp [truthy] at hcf
          simp [jsOr, hcf]
      | some v =>
        rw [hrr] at hr
        simp [truthy] at hr
        cases hcc : h.cfConnectingIp with
        | none => simp [jsOr, hr]
        | some w =>
          rw [hcc] at hcf
          simp [truthy] at hcf
          simp [jsOr, hr, hcf]

/-- C7 witness: a non-empty first forwarded entry is used (trimmed); an
authenticated identity short-circuits to `user:<id>`; with only the
proxy-specific header set, that header is used. -/
theorem getClientId_resolution_witness :
    getClientId ⟨some " 1.2.3.4 , 9.9.9.9", none, none⟩ none = "1.2.3.4" ∧
    getClientId ⟨none, none, none⟩ (some "u7") = "user:u7" ∧
    getClientId ⟨none, none, some "5.5.5.5"⟩ none = "5.5.5.5" := by
  have h1 := ((getClientId_resolution
    ⟨some " 1.2.3.4 , 9.9.9.9", none, none⟩ none).2 (by decide)).1
    "1.2.3.4" (by decide) (by decide)
  have h2 := (getClientId_resolution ⟨none, none, none⟩ (some "u7")).1
    (by decide)
  have h3 := ((getClientId_resolution ⟨none, none, some "5.5.5.5"⟩ none).2
    (by decide)).2.2.1 (by decide) (by decide) (by decide)
  exact ⟨h1, h2.trans (by decide), h3.trans (by decide)⟩

/-- C1: an accepted photo upload (valid token, quota available, allowed
type, size under the 5MB ceiling) hands the file's bytes to
`uploadFileLocally`, which writes the raw plaintext bytes
`[255, 216, 255, 217]` to storage unchanged — no encryption is applied
between the gatekeeper checks and the storage write, contradicting the
route's own documentation, which announces that it uploads and encrypts
the photo. -/
theorem photo_upload_stores_raw_plaintext :
    photoUploadPOST (fun t => if t = "tok" then some "user1" else none)
      (fun _ => true)
      ⟨some "tok", some ⟨"me.jpg", "image/jpeg", 4, [255, 216, 255, 217]⟩⟩
      1000 "abcd1234" [] =
      (.success "/uploads/photos/user1_1000_abcd1234.jpg",
       [("photos/user1_1000_abcd1234.jpg", [255, 216, 255, 217])]) := by
  decide

/-- C2 counterexample: with `JWT_SECRET` absent, a login request with a
well-formed body is answered per-request with the recoverable outcome
`configError` and HTTP status 500 — the process did not refuse to start,
and the authentication request is answered with a recoverable error on
account of the missing secret. -/
theorem login_missing_secret_is_per_request_500 :
    loginPOST (fun _ => some ⟨"id1", "a@b.c", "hash", true⟩)
      (fun _ _ => true) none "a@b.c" "pw" = .configError ∧
    statusOfLogin .configError = 500 := by
  decide

/-- C2 (amended): a missing (or empty) token-signing secret is checked per
request by the login route and surfaced as a recoverable 500
`Server configuration error` response; no startup enforcement exists, and
no minimum-length check exists at all — any non-empty secret, however
short, passes the configuration check. -/
theorem login_secret_checked_per_request
    (findUser : String → Option UserRec)
    (verifyPwd : String → String → Bool) (email password : String)
    (he : email ≠ "") (hp : password ≠ "") :
    loginPOST findUser verifyPwd none email password = .configError ∧
    statusOfLogin (loginPOST findUser verifyPwd none email password) =
      500 ∧
    (∀ s, s ≠ "" →
      loginPOST findUser verifyPwd (some s) email password ≠
        .configError) := by
  have h1 : loginPOST findUser verifyPwd none email password =
      .configError := by
    simp [loginPOST, he, hp, truthy]
  refine ⟨h1, by simp [h1, statusOfLogin], ?_⟩
  intro s hs
  simp [loginPOST, he, hp, truthy, hs]
  cases hf : findUser email with
  | none => simp
  | some u =>
    by_cases hh : u.passwordHash = ""
    · simp [hh]
    · by_cases hv : verifyPwd password u.passwordHash = false
      · simp [hh, hv]
      · by_cases ha : u.isActive = false
        · simp [hh, hv, ha]
        · simp [hh, hv, ha]

/-- C2 witness: with a valid body, the missing secret yields `configError`
while a one-character secret does not. -/
theorem login_secret_checked_witness :
    loginPOST (fun _ => none) (fun _ _ => false) none "a@b.c" "pw" =
      .configError ∧
    loginPOST (fun _ => none) (fun _ _ => false) (some "x") "a@b.c" "pw" ≠
      .configError := by
  have h := login_secret_checked_per_request (fun _ => none)
    (fun _ _ => false) "a@b.c" "pw" (by decide) (by decide)
  exact ⟨h.1, h.2.2 "x" (by decide)⟩

/-- C6: a photo upload whose declared size exceeds the 5MB ceiling — with a
valid token, available quota and an allowed declared type, so that the size
check is the one that fires — is rejected with the file-too-large outcome
(HTTP 400) and the storage state is returned unchanged: no storage write
(and no call of any kind on the file's bytes) occurs. -/
theorem photo_too_large_rejected_before_storage
    (verifyTok : String → Option String) (canUpload : String → Bool)
    (tok : String) (f : UploadFile) (timestamp : Nat) (randomId : String)
    (store : StorageState)
    (hauth : truthy (verifyTok tok) = true)
    (hq : canUpload ((verifyTok tok).getD "") = true)
    (hmime : ALLOWED_TYPES.contains f.mimeType = true)
    (hsize : MAX_FILE_SIZE < f.size) :
    photoUploadPOST verifyTok canUpload ⟨some tok, some f⟩ timestamp
      randomId store = (.fileTooLarge, store) ∧
    statusOfUpload .fileTooLarge = 400 := by
  refine ⟨?_, rfl⟩
  have hmime' : f.mimeType ∈ ALLOWED_TYPES := by
    simpa using hmime
  simp [photoUploadPOST, hauth, hq, hmime, hmime', hsize]

/-- C6 witness: a 12MB JPEG (12582912 bytes) with everything else valid is
rejected with `fileTooLarge` and the (empty) storage state is unchanged. -/
theorem photo_too_large_witness :
    photoUploadPOST (fun t => if t = "tok" then some "user1" else none)
      (fun _ => true)
      ⟨some "tok", some ⟨"big.jpg", "image/jpeg", 12582912, [1, 2, 3]⟩⟩
      1000 "abcd1234" [] = (.fileTooLarge, []) := by
  exact (photo_too_large_rejected_before_storage
    (fun t => if t = "tok" then some "user1" else none) (fun _ => true)
    "tok" ⟨"big.jpg", "image/jpeg", 12582912, [1, 2, 3]⟩ 1000 "abcd1234" []
    (by decide) (by decide) (by decide) (by decide)).1

/-- C9: the name under which an accepted upload is stored is exactly
`userId ++ "_" ++ timestamp ++ "_" ++ randomId ++ extname(fileName)` inside
the kind directory — composed of the owner's id, the current timestamp, a
random suffix and the original extension — and the result depends on the
uploaded filename only through its extension: any two filenames with the
same extension produce identical storage states and URLs. -/
theorem upload_storage_name_composition (store : StorageState)
    (bytes : List Nat) (fileName userId : String) (kind : FileKind)
    (timestamp : Nat) (randomId : String) :
    uploadFileLocally store bytes fileName userId kind timestamp randomId =
      ((typeDir kind ++ "/" ++
          (userId ++ "_" ++ toString timestamp ++ "_" ++ randomId ++
            extname fileName), bytes) :: store,
       "/uploads/" ++ (typeDir kind ++ "/" ++
          (userId ++ "_" ++ toString timestamp ++ "_" ++ randomId ++
            extname fileName))) ∧
    (∀ fileName', extname fileName' = extname fileName →
      uploadFileLocally store bytes fileName' userId kind timestamp
        randomId =
      uploadFileLocally store bytes fileName userId kind timestamp
        randomId) := by
  refine ⟨rfl, ?_⟩
  intro f' hf
  simp [uploadFileLocally, uniqueFileName, hf]

/-- C9 witness: `"evil.jpg"` and `"me.jpg"` produce the same stored name,
which is composed of owner id, timestamp, random suffix and `.jpg`. -/
theorem upload_storage_name_witness :
    uploadFileLocally [] [7] "evil.jpg" "user1" .photo 5 "r1" =
      uploadFileLocally [] [7] "me.jpg" "user1" .photo 5 "r1" ∧
    uploadFileLocally [] [7] "me.jpg" "user1" .photo 5 "r1" =
      ([("photos/user1_5_r1.jpg", [7])], "/uploads/photos/user1_5_r1.jpg")
    := by
  have h := upload_storage_name_composition [] [7] "me.jpg" "user1" .photo
    5 "r1"
  exact ⟨h.2 "evil.jpg" (by decide), h.1.trans (by decide)⟩

end ProfProfiler
